import Mathlib

/-!
Verification development for the tsunami cloud-provisioning library
(src/lib.rs, src/providers/{mod,aws,azure,baremetal}.rs).

The Rust code is shallowly embedded: HashMap values become association
lists (insertion replaces an existing key, as HashMap::insert does),
provider API calls become explicit oracle arguments (schedules of
responses), wall-clock time becomes a counter advanced at each sleep, and
the polling loops become fuel-indexed recursions whose fuel exhaustion is
reported as a distinct outcome.  Rust panics (unwrap / expect) are
modelled as a distinct outcome as well, never as a default value.
-/

namespace Tsunami

/-- Lookup in an association list, first match wins (models HashMap get for
maps whose keys are unique, and is exact for the insertion discipline of
`listInsert` below). -/
def alookup {κ β : Type} [DecidableEq κ] : List (κ × β) → κ → Option β
  | [], _ => none
  | p :: rest, k => if p.1 = k then some p.2 else alookup rest k

/-- HashMap::insert modelled on association lists: replace the value if the
key is present, otherwise append the new binding. -/
def listInsert {κ β : Type} [DecidableEq κ] (m : List (κ × β)) (k : κ) (v : β) :
    List (κ × β) :=
  if k ∈ m.map Prod.fst then
    m.map (fun p => if p.1 = k then (k, v) else p)
  else m ++ [(k, v)]

/-- HashMap::remove modelled on association lists. -/
def listErase {κ β : Type} [DecidableEq κ] (m : List (κ × β)) (k : κ) :
    List (κ × β) :=
  m.filter (fun p => decide (p.1 ≠ k))

/-- One step of itertools into_group_map: push `v` onto the group of key `k`,
creating the group at the end if it does not exist yet.  (The group order of
the underlying HashMap is unspecified; this model fixes it to first
occurrence, which no claim constrains.) -/
def groupMapPush {κ α : Type} [DecidableEq κ] : List (κ × List α) → κ → α → List (κ × List α)
  | [], k, v => [(k, [v])]
  | p :: rest, k, v =>
    if p.1 = k then (p.1, p.2 ++ [v]) :: rest else p :: groupMapPush rest k v

/-- itertools into_group_map over an input sequence, keyed by `key`. -/
def intoGroupMap {κ α : Type} [DecidableEq κ] (key : α → κ) (l : List α) :
    List (κ × List α) :=
  l.foldl (fun acc v => groupMapPush acc (key v) v) []

@[simp]
theorem alookup_nil {κ β : Type} [DecidableEq κ] (k : κ) :
    alookup ([] : List (κ × β)) k = none := rfl

@[simp]
theorem alookup_cons {κ β : Type} [DecidableEq κ] (p : κ × β) (rest : List (κ × β)) (k : κ) :
    alookup (p :: rest) k = if p.1 = k then some p.2 else alookup rest k := rfl

theorem alookup_append {κ β : Type} [DecidableEq κ] (m l : List (κ × β)) (k : κ) :
    alookup (m ++ l) k = ((alookup m k).rec (alookup l k) (fun v => some v) : Option β) := by
  induction m with
  | nil => simp
  | cons p rest ih =>
    by_cases h : p.1 = k <;> simp [alookup, h, ih]

theorem alookup_eq_none_of_not_mem {κ β : Type} [DecidableEq κ] {m : List (κ × β)} {k : κ}
    (h : k ∉ m.map Prod.fst) : alookup m k = none := by
  induction m with
  | nil => rfl
  | cons p rest ih =>
    simp only [List.map_cons, List.mem_cons] at h
    push_neg at h
    simp [alookup, h.1, ih h.2, Ne.symm h.1]

theorem listInsert_of_not_mem {κ β : Type} [DecidableEq κ] {m : List (κ × β)} {k : κ} (v : β)
    (h : k ∉ m.map Prod.fst) : listInsert m k v = m ++ [(k, v)] := by
  simp [listInsert, h]

/-- A machine descriptor, src/providers/aws.rs:60 (`MachineSetup<YesAmi>`).
The Rust `ami` field is an `Option<String>` which the `YesAmi` type-state
guarantees to be `Some`, so it is embedded as a plain string; the setup
callback is embedded by its presence (`has_setup`), since the claims only
track whether and how often it is invoked. -/
structure MachineSetup where
  region : String
  instance_type : String
  ami : String
  has_setup : Bool
deriving DecidableEq, Repr

/-- The builder state, src/lib.rs:87 (`TsunamiBuilder.descriptors`). -/
structure TsunamiBuilder where
  descriptors : List (String × MachineSetup)
deriving DecidableEq, Repr

/-- TsunamiBuilder::add, src/lib.rs:109.  The source first performs
`self.descriptors.insert(nickname, m)` and only then inspects the returned
old value to decide between `Err` (duplicate) and `Ok`; either way the map
now holds the new descriptor.  Returns the call result together with the
updated builder. -/
def TsunamiBuilder.add (b : TsunamiBuilder) (nickname : String) (m : MachineSetup) :
    Except String Unit × TsunamiBuilder :=
  let old := alookup b.descriptors nickname
  let b2 : TsunamiBuilder := ⟨listInsert b.descriptors nickname m⟩
  match old with
  | some _ => (Except.error ("Duplicate machine name " ++ nickname), b2)
  | none => (Except.ok (), b2)

/-- One per-region batch, src/providers/mod.rs:13 (`LaunchDescriptor`). -/
structure LaunchDescriptor where
  region : String
  max_wait : Option Nat
  machines : List (String × MachineSetup)
deriving DecidableEq, Repr

/-- The grouping step of the dispatcher (Launcher::spawn,
src/providers/mod.rs:110-121, and identically TsunamiBuilder::spawn,
src/lib.rs:166-177): the (nickname, descriptor) pairs are grouped with
into_group_map keyed by the descriptor region, and each group becomes one
LaunchDescriptor carrying the shared max_wait. -/
def spawnBatches (ms : List (String × MachineSetup)) (max_wait : Option Nat) :
    List LaunchDescriptor :=
  (intoGroupMap (fun p => p.2.region) ms).map (fun g => ⟨g.1, max_wait, g.2⟩)

/-- The dispatcher loop of spawn (src/providers/mod.rs:110-124): launch is
called once per batch, and the `?` on the launch result stops the loop at the
first failure.  `ok r` is whether launch succeeds for region r; the result is
the ordered list of regions launch was invoked on and whether spawn
succeeded. -/
def launchSeq (ok : String → Bool) : List LaunchDescriptor → List String × Bool
  | [] => ([], true)
  | d :: rest =>
    if ok d.region then
      let r := launchSeq ok rest
      (d.region :: r.1, r.2)
    else ([d.region], false)

/-- One spot capacity request as issued at aws.rs:445-453: the image and
instance type of the group (the source reads them from the first group member
at aws.rs:436-437, which equals the group key), and instance_count = the
group cardinality (aws.rs:446). -/
structure SpotRequest where
  ami : String
  instance_type : String
  count : Nat
deriving DecidableEq, Repr

/-- The outstanding_spot_request_ids map of AWSRegion (aws.rs:270):
provider request id to (nickname, descriptor). -/
abbrev OutMap := List (String × (String × MachineSetup))

/-- The grouping of make_spot_instance_requests (aws.rs:425-433): machines are
grouped with into_group_map keyed by (ami, instance_type). -/
def spotGroups (machines : List (String × MachineSetup)) :
    List ((String × String) × List (String × MachineSetup)) :=
  intoGroupMap (fun p => (p.2.ami, p.2.instance_type)) machines

/-- The loop body of make_spot_instance_requests (aws.rs:434-490) over the
group list: for the i-th group issue one request sized to the group
(aws.rs:446); `resp i` is the id list the provider returns for it
(aws.rs:466-476).  A count mismatch is a fatal error (aws.rs:479-485,
no retry); otherwise ids are zipped positionally against the group members
(zip_eq, aws.rs:487) and inserted into outstanding_spot_request_ids
(aws.rs:488).  On success, returns the final map and the issued requests. -/
def processSpotGroups (resp : Nat → List String) :
    Nat → OutMap → List ((String × String) × List (String × MachineSetup)) →
    Except String (OutMap × List SpotRequest)
  | _, out, [] => Except.ok (out, [])
  | i, out, g :: rest =>
    let ids := resp i
    if ids.length ≠ g.2.length then
      Except.error ("Got " ++ toString ids.length ++ " spot instance requests but expected "
        ++ toString g.2.length)
    else
      let out2 := (ids.zip g.2).foldl (fun m p => listInsert m p.1 p.2) out
      match processSpotGroups resp (i + 1) out2 rest with
      | Except.ok (outF, reqs) => Except.ok (outF, ⟨g.1.1, g.1.2, g.2.length⟩ :: reqs)
      | Except.error e => Except.error e

/-- make_spot_instance_requests (aws.rs:418-493), starting from the current
outstanding_spot_request_ids map `out`. -/
def make_spot_instance_requests (out : OutMap) (machines : List (String × MachineSetup))
    (resp : Nat → List String) : Except String (OutMap × List SpotRequest) :=
  processSpotGroups resp 0 out (spotGroups machines)

/-- The pending-request entries that a successful run of processSpotGroups
records, flattened in group order: for the i-th group, the positional zip of
its response ids against its members. -/
def flatZips (resp : Nat → List String) :
    Nat → List ((String × String) × List (String × MachineSetup)) → OutMap
  | _, [] => []
  | i, g :: rest => (resp i).zip g.2 ++ flatZips resp (i + 1) rest

/-- Outcome of a fuel-indexed embedding of a Rust polling loop:
the fuel ran out with the loop still running, the code panicked (an unwrap
or expect failed), or the loop finished with a value. -/
inductive LoopRes (α : Type) where
  | fuelOut
  | panicked
  | done (a : α)
deriving DecidableEq, Repr

/-- One spot request status as returned by describe_spot_instance_requests
(rusoto SpotInstanceRequest): request id, state string, optional assigned
instance id.  The source unwraps the id and state fields (aws.rs:535-542);
they are embedded as present. -/
structure SirStatus where
  id : String
  state : String
  iid : Option String
deriving DecidableEq, Repr

/-- The pending predicate of aws.rs:545-552: a request is still pending when
its state is "open", or "active" without an assigned instance id. -/
def sirPending (s : SirStatus) : Bool :=
  s.state == "open" || (s.state == "active" && s.iid.isNone)

/-- The instances map of AWSRegion (aws.rs:271): instance id to
(optional (public ip, public dns), (nickname, descriptor)). -/
abbrev InstMap := List (String × (Option (String × String) × (String × MachineSetup)))

/-- The resolution step of wait_for_spot_instance_requests taken when no
request is pending (aws.rs:556-573): each request in state "active" is
promoted into the instances map (address pair absent) and removed from
outstanding_spot_request_ids; a request in any other state is logged as
failed and skipped — the filter_map drops it from the instances map but
nothing removes its id from outstanding_spot_request_ids.  `none` models the
unwrap panics at aws.rs:564-567 (an active request without an instance id,
or an id missing from the outstanding map). -/
def resolveSpotRequests (out : OutMap) : List SirStatus → Option (OutMap × InstMap)
  | [] => some (out, [])
  | s :: rest =>
    if s.state = "active" then
      match s.iid, alookup out s.id with
      | some iid, some v =>
        match resolveSpotRequests (listErase out s.id) rest with
        | some (outF, insts) => some (outF, (iid, (none, v)) :: insts)
        | none => none
      | _, _ => none
    else
      resolveSpotRequests out rest

/-- One describe_spot_instance_requests outcome: the transient
"request ID does not exist" error (aws.rs:521), any other error (fatal,
aws.rs:524-528), or a status list. -/
inductive DescribeResult where
  | transientErr
  | fatalErr
  | ok (sirs : List SirStatus)

/-- The error value of wait_for_spot_instance_requests, carrying the request
ids covered by the cancellation call when the deadline was hit (aws.rs:582-586
builds the cancel request from the id list captured before the loop). -/
structure SpotTimeout where
  msg : String
  cancelled : List String
deriving DecidableEq, Repr

/-- The polling loop of wait_for_spot_instance_requests (aws.rs:515-629).
`sched q` is the result of the q-th describe call; `elapsed` counts the
one-second poll sleeps (standing in for start.elapsed()); `reqIds` is the id
list captured before the loop (aws.rs:510-511).  Faithful control flow:
a transient describe error `continue`s immediately — no sleep, no deadline
check (aws.rs:521-523); any other describe error is fatal; when no request
is pending the loop resolves and breaks; otherwise it sleeps one second and
only then, still inside the pending branch, checks the deadline
(aws.rs:576-628).  On deadline expiry the source cancels every captured
request id, sleeps briefly, performs one more describe purely for logging,
and bails "wait limit reached"; a failure of that cancel call or of the
final describe would propagate as a different error message, which no claim
under study distinguishes, so the timeout branch is embedded as the timeout
error carrying the cancelled ids. -/
def spotWaitLoop (sched : Nat → DescribeResult) (maxWait : Option Nat) (out : OutMap)
    (reqIds : List String) (elapsed q : Nat) :
    Nat → LoopRes (Except SpotTimeout (OutMap × InstMap))
  | 0 => LoopRes.fuelOut
  | fuel + 1 =>
    match sched q with
    | DescribeResult.transientErr =>
      spotWaitLoop sched maxWait out reqIds elapsed (q + 1) fuel
    | DescribeResult.fatalErr =>
      LoopRes.done (Except.error ⟨"failed to describe spot instances", []⟩)
    | DescribeResult.ok sirs =>
      if sirs.any sirPending then
        match maxWait with
        | some w =>
          if elapsed + 1 > w then
            LoopRes.done (Except.error ⟨"wait limit reached", reqIds⟩)
          else spotWaitLoop sched maxWait out reqIds (elapsed + 1) (q + 1) fuel
        | none => spotWaitLoop sched maxWait out reqIds (elapsed + 1) (q + 1) fuel
      else
        match resolveSpotRequests out sirs with
        | some (outF, insts) => LoopRes.done (Except.ok (outF, insts))
        | none => LoopRes.panicked

/-- wait_for_spot_instance_requests (aws.rs:503-632): the request-id list for
the describe and cancel calls is captured from the outstanding map before the
loop starts. -/
def wait_for_spot_instance_requests (sched : Nat → DescribeResult) (maxWait : Option Nat)
    (out : OutMap) (fuel : Nat) : LoopRes (Except SpotTimeout (OutMap × InstMap)) :=
  spotWaitLoop sched maxWait out (out.map Prod.fst) 0 0 fuel

/-- Deadline threading inside AWSLauncher::launch (aws.rs:237-243).  The
source measures the time the fulfillment wait took, and then, in
`if let Some(mut d) = l.max_wait { d -= elapsed }`, subtracts it from `d` —
which is a copy of the Duration that is dropped right after, so the value
subsequently passed to wait_for_instances (aws.rs:243) is the unmodified
`l.max_wait`.  Returns (argument given to wait_for_spot_instance_requests,
argument given to wait_for_instances). -/
def launchStageBudgets (max_wait : Option Nat) (spotWaitElapsed : Nat) :
    Option Nat × Option Nat :=
  let spotArg := max_wait
  let d := match max_wait with
    | some d0 => some (d0 - spotWaitElapsed)
    | none => none
  let _ := d
  (spotArg, max_wait)

/-- One instance description as returned by describe_instances, restricted to
the fields the match at aws.rs:654-661 looks at.  The source pattern also
requires the instance id to be present; a description missing it falls to the
not-ready arm, like one missing any other field — the embedding keeps the id
plain since every description the claims use carries one. -/
structure InstDesc where
  instance_id : String
  code : Option Int
  public_dns : Option String
  public_ip : Option String
deriving DecidableEq, Repr

/-- The readiness pattern of aws.rs:654-661: lifecycle code 16 (running) with
both the public DNS name and the public IP present. -/
def instReady (d : InstDesc) : Bool :=
  d.code == some 16 && d.public_dns.isSome && d.public_ip.isSome

/-- Observable actions of one readiness pass: the ssh handshake
(aws.rs:667-684), the write of the address pair into the instances map
(aws.rs:686-688), and one invocation of the setup procedure
(aws.rs:689-704). -/
inductive ReadyAction where
  | sshConnect (iid : String)
  | setIp (iid : String) (ip dns : String)
  | runSetup (name : String)
deriving DecidableEq, Repr

/-- The for-pass over one describe_instances response inside
wait_for_instances (aws.rs:646-713).  Every description matching the ready
pattern is processed — again on every later pass, the source keeps no record
of instances already handled: ssh connect (failure is fatal, aws.rs:680-684),
overwrite of the address pair, and, when the descriptor has a setup
procedure, an invocation of it (failure is fatal, aws.rs:692-704).  A
description not matching the pattern clears all_ready.  `none` models the
get_mut unwrap panic at aws.rs:687 (a described id missing from the
instances map). -/
def processInstanceDescs (sshOk setupOk : String → Bool) :
    InstMap → List ReadyAction → Bool → List InstDesc →
    Option (Except String (InstMap × List ReadyAction × Bool))
  | insts, acts, allReady, [] => some (Except.ok (insts, acts, allReady))
  | insts, acts, allReady, d :: rest =>
    if instReady d then
      if sshOk d.instance_id then
        match alookup insts d.instance_id with
        | some (_, (name, ms)) =>
          let insts2 := listInsert insts d.instance_id
            (some (d.public_ip.getD "", d.public_dns.getD ""), (name, ms))
          let acts2 := acts ++ [ReadyAction.sshConnect d.instance_id,
            ReadyAction.setIp d.instance_id (d.public_ip.getD "") (d.public_dns.getD "")]
          if ms.has_setup then
            if setupOk name then
              processInstanceDescs sshOk setupOk insts2
                (acts2 ++ [ReadyAction.runSetup name]) allReady rest
            else some (Except.error ("setup procedure for " ++ name ++ " machine failed"))
          else processInstanceDescs sshOk setupOk insts2 acts2 allReady rest
        | none => none
      else some (Except.error "failed to ssh to machine")
    else processInstanceDescs sshOk setupOk insts acts false rest

/-- The polling loop of wait_for_instances (aws.rs:643-720).  `sched t` is
the describe-instances response of iteration t (the id filter of the request
is fixed before the loop, aws.rs:642); the loop has no sleep, so `elapsed`
advances by one per pass, standing for the describe round-trip.  The source
checks the deadline after the pass and before re-testing all_ready
(aws.rs:715-719), so a pass that made everything ready still times out when
the deadline is exceeded. -/
def instWaitLoop (sched : Nat → List InstDesc) (sshOk setupOk : String → Bool)
    (maxWait : Option Nat) (insts : InstMap) (acts : List ReadyAction) (elapsed t : Nat) :
    Nat → LoopRes (Except String (InstMap × List ReadyAction))
  | 0 => LoopRes.fuelOut
  | fuel + 1 =>
    match processInstanceDescs sshOk setupOk insts acts true (sched t) with
    | none => LoopRes.panicked
    | some (Except.error e) => LoopRes.done (Except.error e)
    | some (Except.ok (insts2, acts2, allReady)) =>
      match maxWait with
      | some w =>
        if elapsed + 1 > w then LoopRes.done (Except.error "timed out")
        else if allReady then LoopRes.done (Except.ok (insts2, acts2))
        else instWaitLoop sched sshOk setupOk maxWait insts2 acts2 (elapsed + 1) (t + 1) fuel
      | none =>
        if allReady then LoopRes.done (Except.ok (insts2, acts2))
        else instWaitLoop sched sshOk setupOk maxWait insts2 acts2 (elapsed + 1) (t + 1) fuel

/-- wait_for_instances (aws.rs:635-723): all_ready starts as
instances.is_empty(), so with an empty map the loop never runs. -/
def wait_for_instances (sched : Nat → List InstDesc) (sshOk setupOk : String → Bool)
    (maxWait : Option Nat) (insts : InstMap) (fuel : Nat) :
    LoopRes (Except String (InstMap × List ReadyAction)) :=
  if insts.isEmpty then LoopRes.done (Except.ok (insts, []))
  else instWaitLoop sched sshOk setupOk maxWait insts [] 0 0 fuel

/-- AWSRegion::connect_all (aws.rs:727-764): iterate the instances map values
and collect Results.  An entry with a populated address pair yields one
(nickname, machine record); an entry whose address pair is absent makes the
closure bail "Machines not initialized", and the Result collect fails the
whole call at the first such entry.  The ssh connections themselves are
embedded as succeeding; a handshake failure would fail the call the same
way. -/
structure MachineRec where
  nickname : String
  public_ip : String
  public_dns : String
deriving DecidableEq, Repr

def region_connect_all : InstMap → Except String (List (String × MachineRec))
  | [] => Except.ok []
  | (_, (some (ip, dns), (name, _))) :: rest =>
    match region_connect_all rest with
    | Except.ok l => Except.ok ((name, ⟨name, ip, dns⟩) :: l)
    | Except.error e => Except.error e
  | (_, (none, _)) :: _ => Except.error "Machines not initialized"

/-- The region map of AWSLauncher (aws.rs:173), abstracted to the nicknames
each AWSRegion tracks. -/
structure LauncherState where
  regions : List (String × List String)
deriving DecidableEq, Repr

/-- AWSLauncher::launch at the launcher level (aws.rs:229-246): a fresh
AWSRegion is built for the batch (aws.rs:231) and inserted into self.regions
(aws.rs:244).  When the key is already present, HashMap::insert returns the
previous AWSRegion, which is dropped on the spot — and its Drop
implementation (aws.rs:767-818) terminates all instances it tracks.
Returns the new launcher state and the nicknames whose machines the replaced
region terminated on drop. -/
def launcherLaunch (st : LauncherState) (region : String) (machines : List String) :
    LauncherState × List String :=
  let dropped := (alookup st.regions region).getD []
  (⟨listInsert st.regions region machines⟩, dropped)

/-- AWSLauncher::connect_all (aws.rs:248-250): the union of every tracked
machines of every tracked region. -/
def launcherConnectAll (st : LauncherState) : List String :=
  st.regions.foldr (fun p acc => p.2 ++ acc) []

/-- One result of a terminate_instances call in the Drop retry loop
(aws.rs:778-787): success, a transient network error ("Pooled stream
disconnected" / "broken pipe", retried), or any other error (logged,
abandoned). -/
inductive TermResult where
  | okTerm
  | transientNet
  | otherErr
deriving DecidableEq, Repr

/-- Observable steps of teardown. -/
inductive TeardownAction where
  | terminateCall
  | logRetryTermination
  | logTerminationFailure
  | deleteSecurityGroupCall
  | logSecurityGroupFailure
  | deleteKeyPairCall
  | logKeyFailure
  | deleteResourceGroupCall
deriving DecidableEq, Repr

/-- Outcome of a teardown run: a panic escaped it, the unbounded terminate
retry loop was still retrying when the supplied responses ran out, or it ran
to completion with the listed actions. -/
inductive DropOutcome where
  | panicked
  | stillRetrying
  | completed (acts : List TeardownAction)
deriving DecidableEq, Repr

/-- The terminate retry loop of aws.rs:778-787: call terminate_instances and
retry while the error is one of the transient network signatures; any other
error is logged and the loop abandoned.  The responses list feeds successive
calls; exhausting it with every response transient means the loop is still
running (the source has no bound). -/
def terminateRetryLoop : List TermResult → Option (List TeardownAction)
  | [] => none
  | TermResult.okTerm :: _ => some [TeardownAction.terminateCall]
  | TermResult.transientNet :: rest =>
    match terminateRetryLoop rest with
    | some acts => some (TeardownAction.terminateCall :: TeardownAction.logRetryTermination :: acts)
    | none => none
  | TermResult.otherErr :: _ =>
    some [TeardownAction.terminateCall, TeardownAction.logTerminationFailure]

/-- The fields of AWSRegion that its Drop implementation reads
(aws.rs:767-818); client and log are Options unwrapped on the first two
lines of drop. -/
structure AWSRegionState where
  clientInit : Bool
  loggerInit : Bool
  security_group_id : String
  ssh_key_name : String
  instanceIds : List String
deriving DecidableEq, Repr

/-- Drop for AWSRegion (aws.rs:767-818).  The first two lines unwrap the
client and the logger, panicking when either is None (as on a
Default-constructed AWSRegion).  Then: if any instances are tracked,
terminate them with the retry loop; if the security group id is nonblank,
delete it, logging failure; if the key name is nonblank, delete it, logging
failure.  The two delete steps run regardless of earlier failures. -/
def awsDrop (st : AWSRegionState) (termResps : List TermResult) (sgOk keyOk : Bool) :
    DropOutcome :=
  if st.clientInit && st.loggerInit then
    let term : Option (List TeardownAction) :=
      if st.instanceIds.isEmpty then some [] else terminateRetryLoop termResps
    match term with
    | none => DropOutcome.stillRetrying
    | some acts1 =>
      let acts2 := if st.security_group_id ≠ "" then
          TeardownAction.deleteSecurityGroupCall ::
            (if sgOk then [] else [TeardownAction.logSecurityGroupFailure])
        else []
      let acts3 := if st.ssh_key_name ≠ "" then
          TeardownAction.deleteKeyPairCall ::
            (if keyOk then [] else [TeardownAction.logKeyFailure])
        else []
      DropOutcome.completed (acts1 ++ acts2 ++ acts3)
  else DropOutcome.panicked

/-- Drop for AzureRegion (azure.rs:484-488): it calls
delete_resource_group and unwraps the Result, so a failing delete panics out
of teardown. -/
def azureDrop (deleteOk : Bool) : DropOutcome :=
  if deleteOk then DropOutcome.completed [TeardownAction.deleteResourceGroupCall]
  else DropOutcome.panicked

/-- The provider keeps its contract for a group list starting at request
index i: each group receives exactly as many request ids as it has
members. -/
def respMatches (resp : Nat → List String) :
    Nat → List ((String × String) × List (String × MachineSetup)) → Prop
  | _, [] => True
  | i, g :: rest => (resp i).length = g.2.length ∧ respMatches resp (i + 1) rest

/-! Concrete inputs used by counterexamples, witnesses and evaluations. -/

/-- A descriptor in us-east-1 with image ami-a and no setup procedure. -/
def msA : MachineSetup := ⟨"us-east-1", "t3.small", "ami-a", false⟩

/-- A descriptor in us-east-1 with image ami-b and no setup procedure. -/
def msB : MachineSetup := ⟨"us-east-1", "t3.small", "ami-b", false⟩

/-- A descriptor in us-west-2. -/
def msW : MachineSetup := ⟨"us-west-2", "t3.small", "ami-w", false⟩

/-- A descriptor in us-east-1 with a setup procedure attached. -/
def msS : MachineSetup := ⟨"us-east-1", "t3.small", "ami-a", true⟩

/-- A one-entry outstanding map. -/
def cexOut : OutMap := [("sir-1", ("m1", msA))]

/-- A describe schedule whose single request immediately reports the
terminal state "failed". -/
def cexSched : Nat → DescribeResult :=
  fun _ => DescribeResult.ok [⟨"sir-1", "failed", none⟩]

/-- Two tracked instances, both with a setup procedure, addresses absent. -/
def c3Insts : InstMap := [("i-1", (none, ("m1", msS))), ("i-2", (none, ("m2", msS)))]

/-- Instance i-1 running with both public address fields present. -/
def c3ReadyA : InstDesc := ⟨"i-1", some 16, some "dnsa", some "1.1.1.1"⟩

/-- Instance i-2 still pending (lifecycle code 0, no addresses). -/
def c3PendB : InstDesc := ⟨"i-2", some 0, none, none⟩

/-- Instance i-2 running with both public address fields present. -/
def c3ReadyB : InstDesc := ⟨"i-2", some 16, some "dnsb", some "2.2.2.2"⟩

/-- Describe schedule: on the first pass i-1 is ready and i-2 pending; from
the second pass on both are ready. -/
def c3Sched : Nat → List InstDesc :=
  fun t => if t = 0 then [c3ReadyA, c3PendB] else [c3ReadyA, c3ReadyB]

/-- The instances map after the readiness loop of the c3 scenario. -/
def c3FinalInsts : InstMap :=
  [("i-1", (some ("1.1.1.1", "dnsa"), ("m1", msS))),
   ("i-2", (some ("2.2.2.2", "dnsb"), ("m2", msS)))]

/-- The actions the readiness loop performs in the c3 scenario: instance i-1
is processed again on the second pass, while i-2 catches up. -/
def c3FinalActs : List ReadyAction :=
  [ReadyAction.sshConnect "i-1", ReadyAction.setIp "i-1" "1.1.1.1" "dnsa",
   ReadyAction.runSetup "m1",
   ReadyAction.sshConnect "i-1", ReadyAction.setIp "i-1" "1.1.1.1" "dnsa",
   ReadyAction.runSetup "m1",
   ReadyAction.sshConnect "i-2", ReadyAction.setIp "i-2" "2.2.2.2" "dnsb",
   ReadyAction.runSetup "m2"]

/-- An instances map with one populated and one absent address pair. -/
def c10Insts : InstMap :=
  [("i-1", (some ("1.2.3.4", "dns1"), ("m1", msA))),
   ("i-2", (none, ("m2", msB)))]

/-- Two resolved spot requests: one active with an assigned instance, one
failed. -/
def c1Sirs : List SirStatus :=
  [⟨"sir-1", "active", some "i-1"⟩, ⟨"sir-2", "failed", none⟩]

/-- The outstanding map holding both request ids. -/
def c1Out : OutMap := [("sir-1", ("m1", msA)), ("sir-2", ("m2", msB))]

/-- Three machines forming two compatibility groups: m1 and m3 share
(ami-a, t3.small), m2 is alone with (ami-b, t3.small). -/
def c6Machines : List (String × MachineSetup) :=
  [("m1", msA), ("m2", msB), ("m3", msA)]

/-- Provider responses for the c6 scenario: two ids for the first group, one
for the second. -/
def c6Resp : Nat → List String :=
  fun i => if i = 0 then ["sir-1", "sir-2"] else if i = 1 then ["sir-3"] else []

/-! ## Theorems -/

theorem alookup_append_left {κ β : Type} [DecidableEq κ] {m : List (κ × β)} {k : κ} {v : β}
    (l : List (κ × β)) (h : alookup m k = some v) : alookup (m ++ l) k = some v := by
  induction m with
  | nil => simp [alookup] at h
  | cons p rest ih =>
    by_cases hp : p.1 = k
    · simp only [alookup_cons, hp, if_true] at h
      simp [alookup, hp, h]
    · simp only [alookup_cons, hp, if_false] at h
      simp [alookup, hp, ih h]

theorem alookup_append_right {κ β : Type} [DecidableEq κ] {m : List (κ × β)} {k : κ}
    (l : List (κ × β)) (h : alookup m k = none) : alookup (m ++ l) k = alookup l k := by
  induction m with
  | nil => simp
  | cons p rest ih =>
    by_cases hp : p.1 = k
    · simp [alookup, hp] at h
    · simp only [alookup_cons, hp, if_false] at h
      simp [alookup, hp, ih h]

theorem alookup_isSome_of_mem_keys {κ β : Type} [DecidableEq κ] {m : List (κ × β)} {k : κ}
    (h : k ∈ m.map Prod.fst) : ∃ v, alookup m k = some v := by
  induction m with
  | nil => simp at h
  | cons p rest ih =>
    by_cases hp : p.1 = k
    · exact ⟨p.2, by simp [alookup, hp]⟩
    · simp only [List.map_cons, List.mem_cons] at h
      rcases h with h | h
      · exact absurd h.symm hp
      · obtain ⟨v, hv⟩ := ih h
        exact ⟨v, by simp [alookup, hp, hv]⟩

theorem alookup_map_update {κ β : Type} [DecidableEq κ] (m : List (κ × β)) (k : κ) (v : β) :
    alookup (m.map (fun p => if p.1 = k then (k, v) else p)) k
      = (alookup m k).map (fun _ => v) := by
  induction m with
  | nil => rfl
  | cons p rest ih =>
    by_cases hp : p.1 = k
    · simp [alookup, hp]
    · simp [alookup, hp, ih]

theorem alookup_listInsert_self {κ β : Type} [DecidableEq κ] (m : List (κ × β)) (k : κ)
    (v : β) : alookup (listInsert m k v) k = some v := by
  by_cases hk : k ∈ m.map Prod.fst
  · obtain ⟨w, hw⟩ := alookup_isSome_of_mem_keys hk
    simp [listInsert, hk, alookup_map_update, hw]
  · rw [listInsert_of_not_mem v hk,
      alookup_append_right _ (alookup_eq_none_of_not_mem hk)]
    simp [alookup]

theorem mem_keys_listErase {κ β : Type} [DecidableEq κ] (m : List (κ × β)) (k k2 : κ) :
    k2 ∈ (listErase m k).map Prod.fst ↔ k2 ∈ m.map Prod.fst ∧ k2 ≠ k := by
  simp only [listErase, List.mem_map, List.mem_filter, decide_eq_true_eq]
  constructor
  · rintro ⟨p, ⟨hp, hne⟩, rfl⟩
    exact ⟨⟨p, hp, rfl⟩, hne⟩
  · rintro ⟨⟨p, hp, rfl⟩, hne⟩
    exact ⟨p, ⟨hp, hne⟩, rfl⟩

/-- C8 counterexample: adding a duplicate nickname returns Err, but the
builder state changes — the duplicate descriptor msB replaces the previously
registered msA. -/
theorem c8_duplicate_replaces_cex :
    (TsunamiBuilder.add ⟨[("a", msA)]⟩ "a" msB).1
      = Except.error "Duplicate machine name a" ∧
    (TsunamiBuilder.add ⟨[("a", msA)]⟩ "a" msB).2 = (⟨[("a", msB)]⟩ : TsunamiBuilder) ∧
    (⟨[("a", msB)]⟩ : TsunamiBuilder) ≠ (⟨[("a", msA)]⟩ : TsunamiBuilder) :=
  ⟨rfl, rfl, by decide⟩

/-- C8 (amended): TsunamiBuilder::add with an already-present nickname
returns an Err, but because the insert happens before the duplicate check,
the duplicate descriptor replaces the previously registered one in the
builder state. -/
theorem c8_add_duplicate_errs_but_replaces (b : TsunamiBuilder) (nickname : String)
    (m old : MachineSetup) (h : alookup b.descriptors nickname = some old) :
    (b.add nickname m).1 = Except.error ("Duplicate machine name " ++ nickname) ∧
    alookup (b.add nickname m).2.descriptors nickname = some m := by
  simp [TsunamiBuilder.add, h, alookup_listInsert_self]

/-- Witness for the amended C8 theorem at a concrete duplicate insertion. -/
theorem c8_add_duplicate_errs_but_replaces_witness :
    (TsunamiBuilder.add ⟨[("a", msA)]⟩ "a" msB).1
      = Except.error ("Duplicate machine name " ++ "a") ∧
    alookup (TsunamiBuilder.add ⟨[("a", msA)]⟩ "a" msB).2.descriptors "a" = some msB :=
  c8_add_duplicate_errs_but_replaces ⟨[("a", msA)]⟩ "a" msB msA rfl

/-- C10 (amended): AWSRegion::connect_all is a pure read of the instances
map; when the address pair of every record is populated it returns exactly one
(nickname, machine) entry per record, and as soon as the address
pair is absent it fails the whole call with "Machines not initialized"
instead of omitting that record. -/
theorem c10_connect_all_characterization (insts : InstMap) :
    region_connect_all insts =
      if insts.all (fun p => p.2.1.isSome) then
        Except.ok (insts.map (fun p =>
          (p.2.2.1, ⟨p.2.2.1, (p.2.1.getD ("", "")).1, (p.2.1.getD ("", "")).2⟩)))
      else Except.error "Machines not initialized" := by
  induction insts with
  | nil => rfl
  | cons p rest ih =>
    obtain ⟨iid, ipinfo, name, ms⟩ := p
    cases ipinfo with
    | none => simp [region_connect_all]
    | some pair =>
      obtain ⟨ip, dns⟩ := pair
      by_cases hall : rest.all (fun p => p.2.1.isSome)
      · simp [region_connect_all, ih, hall]
      · simp [region_connect_all, ih, hall]

/-- C5 (amended): for the AWS backend with an initialized client and logger,
and provided the unbounded terminate retry loop resolves, teardown runs to
completion without raising: each step is best-effort, the security-group and
keypair deletions run regardless of failures elsewhere, and with no
resources allocated teardown performs no action.  The Azure backend does not
satisfy the original claim: its teardown panics when its delete fails. -/
theorem c5_aws_teardown_best_effort (st : AWSRegionState) (termResps : List TermResult)
    (sgOk keyOk : Bool) (hc : st.clientInit = true) (hl : st.loggerInit = true)
    (ht : st.instanceIds ≠ [] → ∃ acts, terminateRetryLoop termResps = some acts) :
    ∃ acts, awsDrop st termResps sgOk keyOk = DropOutcome.completed acts ∧
      (st.security_group_id ≠ "" → TeardownAction.deleteSecurityGroupCall ∈ acts) ∧
      (st.ssh_key_name ≠ "" → TeardownAction.deleteKeyPairCall ∈ acts) ∧
      (st.instanceIds = [] → st.security_group_id = "" → st.ssh_key_name = "" →
        acts = []) := by
  unfold awsDrop
  rw [hc, hl]
  by_cases hemp : st.instanceIds.isEmpty
  · refine ⟨(if st.security_group_id ≠ "" then
        TeardownAction.deleteSecurityGroupCall ::
          (if sgOk then [] else [TeardownAction.logSecurityGroupFailure])
      else []) ++ (if st.ssh_key_name ≠ "" then
        TeardownAction.deleteKeyPairCall ::
          (if keyOk then [] else [TeardownAction.logKeyFailure])
      else []), ?_, ?_, ?_, ?_⟩
    · simp [hemp]
    · intro hsg
      simp [hsg]
    · intro hkey
      simp [hkey]
    · intro _ hsg hkey
      simp [hsg, hkey]
  · have hne : st.instanceIds ≠ [] := by
      simpa [List.isEmpty_iff] using hemp
    obtain ⟨acts1, hacts1⟩ := ht hne
    refine ⟨acts1 ++ (if st.security_group_id ≠ "" then
        TeardownAction.deleteSecurityGroupCall ::
          (if sgOk then [] else [TeardownAction.logSecurityGroupFailure])
      else []) ++ (if st.ssh_key_name ≠ "" then
        TeardownAction.deleteKeyPairCall ::
          (if keyOk then [] else [TeardownAction.logKeyFailure])
      else []), ?_, ?_, ?_, ?_⟩
    · simp [hemp, hacts1]
    · intro hsg
      simp [hsg]
    · intro hkey
      simp [hkey]
    · intro habs
      exact absurd habs hne

theorem alookup_groupMapPush_self {κ α : Type} [DecidableEq κ] (m : List (κ × List α))
    (k : κ) (v : α) :
    alookup (groupMapPush m k v) k = some ((alookup m k).getD [] ++ [v]) := by
  induction m with
  | nil => simp [groupMapPush, alookup]
  | cons p rest ih =>
    by_cases hp : p.1 = k
    · simp [groupMapPush, hp, alookup]
    · simp [groupMapPush, hp, alookup, ih]

theorem alookup_groupMapPush_ne {κ α : Type} [DecidableEq κ] (m : List (κ × List α))
    {k k2 : κ} (v : α) (h : k2 ≠ k) :
    alookup (groupMapPush m k v) k2 = alookup m k2 := by
  have hne : ¬ (k = k2) := fun hk => h hk.symm
  induction m with
  | nil => simp [groupMapPush, alookup, hne]
  | cons p rest ih =>
    by_cases hp : p.1 = k
    · subst hp
      simp [groupMapPush, alookup, hne]
    · simp [groupMapPush, hp, alookup, ih]

theorem keys_groupMapPush {κ α : Type} [DecidableEq κ] (m : List (κ × List α))
    (k : κ) (v : α) :
    (groupMapPush m k v).map Prod.fst =
      if k ∈ m.map Prod.fst then m.map Prod.fst else m.map Prod.fst ++ [k] := by
  induction m with
  | nil => simp [groupMapPush]
  | cons p rest ih =>
    by_cases hp : p.1 = k
    · simp [groupMapPush, hp]
    · have hne : ¬ k = p.1 := fun h => hp h.symm
      by_cases hk : k ∈ rest.map Prod.fst
      · simp [groupMapPush, hp, ih, hk, hne]
      · simp [groupMapPush, hp, ih, hk, hne]

theorem mem_keys_groupMapPush {κ α : Type} [DecidableEq κ] (m : List (κ × List α))
    (k k2 : κ) (v : α) :
    k2 ∈ (groupMapPush m k v).map Prod.fst ↔ k2 ∈ m.map Prod.fst ∨ k2 = k := by
  rw [keys_groupMapPush]
  by_cases hk : k ∈ m.map Prod.fst
  · simp only [hk, if_true]
    constructor
    · exact Or.inl
    · rintro (h | rfl) <;> assumption
  · simp [hk]

theorem nodup_keys_groupMapPush {κ α : Type} [DecidableEq κ] {m : List (κ × List α)}
    (k : κ) (v : α) (h : (m.map Prod.fst).Nodup) :
    ((groupMapPush m k v).map Prod.fst).Nodup := by
  rw [keys_groupMapPush]
  by_cases hk : k ∈ m.map Prod.fst
  · simpa [hk] using h
  · simp [hk, List.nodup_append, h]

theorem alookup_foldPush {κ α : Type} [DecidableEq κ] (key : α → κ) (l : List α) :
    ∀ (acc : List (κ × List α)) (r : κ),
    (alookup (l.foldl (fun a v => groupMapPush a (key v) v) acc) r).getD []
      = (alookup acc r).getD [] ++ l.filter (fun v => decide (key v = r)) := by
  induction l with
  | nil => intro acc r; simp
  | cons v rest ih =>
    intro acc r
    rw [List.foldl_cons, ih]
    by_cases hk : key v = r
    · subst hk
      simp [alookup_groupMapPush_self]
    · rw [alookup_groupMapPush_ne _ _ (fun h => hk h.symm)]
      simp [hk]

theorem mem_keys_foldPush {κ α : Type} [DecidableEq κ] (key : α → κ) (l : List α) :
    ∀ (acc : List (κ × List α)) (r : κ),
    r ∈ (l.foldl (fun a v => groupMapPush a (key v) v) acc).map Prod.fst
      ↔ r ∈ acc.map Prod.fst ∨ r ∈ l.map key := by
  induction l with
  | nil => intro acc r; simp
  | cons v rest ih =>
    intro acc r
    rw [List.foldl_cons, ih, mem_keys_groupMapPush]
    simp only [List.map_cons, List.mem_cons]
    tauto

theorem nodup_keys_foldPush {κ α : Type} [DecidableEq κ] (key : α → κ) (l : List α) :
    ∀ (acc : List (κ × List α)), (acc.map Prod.fst).Nodup →
    ((l.foldl (fun a v => groupMapPush a (key v) v) acc).map Prod.fst).Nodup := by
  induction l with
  | nil => intro acc h; exact h
  | cons v rest ih =>
    intro acc h
    rw [List.foldl_cons]
    exact ih _ (nodup_keys_groupMapPush _ _ h)

theorem alookup_self_of_nodup {κ β : Type} [DecidableEq κ] {m : List (κ × β)}
    (hn : (m.map Prod.fst).Nodup) {g : κ × β} (hg : g ∈ m) :
    alookup m g.1 = some g.2 := by
  induction m with
  | nil => simp at hg
  | cons p rest ih =>
    rcases List.mem_cons.mp hg with rfl | hg2
    · simp [alookup]
    · have hnc := List.nodup_cons.mp (show (p.1 :: rest.map Prod.fst).Nodup by simpa using hn)
      have hp : p.1 ≠ g.1 := by
        intro he
        exact hnc.1 (he ▸ List.mem_map_of_mem Prod.fst hg2)
      simp only [alookup_cons, hp, if_false]
      exact ih hnc.2 hg2

theorem nodup_keys_intoGroupMap {κ α : Type} [DecidableEq κ] (key : α → κ) (l : List α) :
    ((intoGroupMap key l).map Prod.fst).Nodup :=
  nodup_keys_foldPush key l [] (by simp)

theorem mem_keys_intoGroupMap {κ α : Type} [DecidableEq κ] (key : α → κ) (l : List α)
    (r : κ) : r ∈ (intoGroupMap key l).map Prod.fst ↔ r ∈ l.map key := by
  rw [intoGroupMap, mem_keys_foldPush]
  simp

theorem intoGroupMap_group_content {κ α : Type} [DecidableEq κ] (key : α → κ)
    (l : List α) {g : κ × List α} (hg : g ∈ intoGroupMap key l) :
    g.2 = l.filter (fun v => decide (key v = g.1)) := by
  have h1 : alookup (intoGroupMap key l) g.1 = some g.2 :=
    alookup_self_of_nodup (nodup_keys_intoGroupMap key l) hg
  have h2 := alookup_foldPush key l [] g.1
  rw [intoGroupMap] at h1
  rw [h1] at h2
  simpa using h2

theorem launchSeq_all_ok (okf : String → Bool) (hok : ∀ r, okf r = true) :
    ∀ ds : List LaunchDescriptor,
    launchSeq okf ds = (ds.map LaunchDescriptor.region, true) := by
  intro ds
  induction ds with
  | nil => rfl
  | cons d rest ih => simp [launchSeq, hok d.region, ih]

/-- C7: the dispatcher partitions the (nickname, descriptor) pairs into one
batch per distinct region — the batch regions are exactly the regions
appearing in the input, without duplicates — each batch holds precisely the
pairs whose descriptor region matches, in their original input relative
order (the filter of the input), and when every launch succeeds, launch is
invoked exactly once per batch, i.e. once per distinct region. -/
theorem c7_spawn_partitions (ms : List (String × MachineSetup)) (mw : Option Nat)
    (okf : String → Bool) (hok : ∀ r, okf r = true) :
    ((spawnBatches ms mw).map LaunchDescriptor.region).Nodup ∧
    (∀ r, r ∈ (spawnBatches ms mw).map LaunchDescriptor.region ↔
      r ∈ ms.map (fun p => p.2.region)) ∧
    (∀ d ∈ spawnBatches ms mw,
      d.machines = ms.filter (fun p => decide (p.2.region = d.region))) ∧
    launchSeq okf (spawnBatches ms mw)
      = ((spawnBatches ms mw).map LaunchDescriptor.region, true) := by
  have hkeys : (spawnBatches ms mw).map LaunchDescriptor.region
      = (intoGroupMap (fun p => p.2.region) ms).map Prod.fst := by
    simp [spawnBatches, List.map_map]
  refine ⟨?_, ?_, ?_, ?_⟩
  · rw [hkeys]
    exact nodup_keys_intoGroupMap _ ms
  · intro r
    rw [hkeys, mem_keys_intoGroupMap]
  · intro d hd
    simp only [spawnBatches, List.mem_map] at hd
    obtain ⟨g, hg, rfl⟩ := hd
    exact intoGroupMap_group_content _ ms hg
  · exact launchSeq_all_ok okf hok _

/-- Witness for C7 on the spec worked example: vm1 and vm2 in us-east-1 and
vm3 in us-west-2 give exactly two batches. -/
theorem c7_spawn_partitions_witness :
    ((spawnBatches [("vm1", msA), ("vm2", msB), ("vm3", msW)] (some 5)).map
        LaunchDescriptor.region).Nodup ∧
    (∀ r, r ∈ (spawnBatches [("vm1", msA), ("vm2", msB), ("vm3", msW)] (some 5)).map
        LaunchDescriptor.region ↔
      r ∈ [("vm1", msA), ("vm2", msB), ("vm3", msW)].map (fun p => p.2.region)) ∧
    (∀ d ∈ spawnBatches [("vm1", msA), ("vm2", msB), ("vm3", msW)] (some 5),
      d.machines = [("vm1", msA), ("vm2", msB), ("vm3", msW)].filter
        (fun p => decide (p.2.region = d.region))) ∧
    launchSeq (fun _ => true) (spawnBatches [("vm1", msA), ("vm2", msB), ("vm3", msW)]
        (some 5))
      = ((spawnBatches [("vm1", msA), ("vm2", msB), ("vm3", msW)] (some 5)).map
          LaunchDescriptor.region, true) :=
  c7_spawn_partitions [("vm1", msA), ("vm2", msB), ("vm3", msW)] (some 5)
    (fun _ => true) (fun _ => rfl)

theorem foldl_listInsert_fresh {κ β : Type} [DecidableEq κ] (l : List (κ × β)) :
    ∀ out : List (κ × β), (out.map Prod.fst ++ l.map Prod.fst).Nodup →
    l.foldl (fun m p => listInsert m p.1 p.2) out = out ++ l := by
  induction l with
  | nil => intro out _; simp
  | cons p rest ih =>
    intro out h
    have hdisj := List.disjoint_of_nodup_append h
    have hp : p.1 ∉ out.map Prod.fst := by
      intro hmem
      exact hdisj hmem (by simp)
    rw [List.foldl_cons, listInsert_of_not_mem _ hp, ih (out ++ [p])]
    · simp
    · simpa [List.append_assoc] using h

theorem processSpotGroups_success (resp : Nat → List String) :
    ∀ (groups : List ((String × String) × List (String × MachineSetup))) (i : Nat)
      (out : OutMap), respMatches resp i groups →
      (out.map Prod.fst ++ (flatZips resp i groups).map Prod.fst).Nodup →
      processSpotGroups resp i out groups
        = Except.ok (out ++ flatZips resp i groups,
            groups.map (fun g => SpotRequest.mk g.1.1 g.1.2 g.2.length)) := by
  intro groups
  induction groups with
  | nil => intro i out _ _; simp [processSpotGroups, flatZips]
  | cons g rest ih =>
    intro i out hm hfresh
    obtain ⟨hg, hm2⟩ := hm
    have hzipkeys : ((resp i).zip g.2).map Prod.fst = resp i :=
      List.map_fst_zip _ _ (le_of_eq hg)
    have hfreshR : ((out ++ (resp i).zip g.2).map Prod.fst
        ++ (flatZips resp (i + 1) rest).map Prod.fst).Nodup := by
      have h2 : (out.map Prod.fst ++ ((resp i).zip g.2).map Prod.fst
          ++ (flatZips resp (i + 1) rest).map Prod.fst).Nodup := by
        simpa [flatZips, List.append_assoc] using hfresh
      simpa [List.append_assoc] using h2
    have hfold : ((resp i).zip g.2).foldl (fun m p => listInsert m p.1 p.2) out
        = out ++ (resp i).zip g.2 := by
      apply foldl_listInsert_fresh
      have h3 : ((out.map Prod.fst ++ ((resp i).zip g.2).map Prod.fst)
          ++ (flatZips resp (i + 1) rest).map Prod.fst).Nodup := by
        simpa [flatZips, List.append_assoc] using hfresh
      exact h3.of_append_left
    have hih := ih (i + 1) (out ++ (resp i).zip g.2) hm2 hfreshR
    simp only [processSpotGroups, hg, Ne, not_true_eq_false, if_false, hfold, hih]
    simp [flatZips, List.append_assoc]

/-- C6: in make_spot_instance_requests, when the provider honours its
contract (each group receives exactly as many ids as it has members, the ids
globally fresh and pairwise distinct), the call issues exactly one capacity
request per (image, instance type) group sized to the group cardinality, and
appends to the outstanding map exactly the positional, order-preserving zips
of each response against its group members — one pending entry per
identifier; each group consists of precisely the compatible machines in
input order; and a response whose id count differs from its group size makes
the call fail with the fatal mismatch error. -/
theorem c6_spot_request_batching (out : OutMap) (machines : List (String × MachineSetup))
    (resp : Nat → List String)
    (hm : respMatches resp 0 (spotGroups machines))
    (hfresh : (out.map Prod.fst
        ++ (flatZips resp 0 (spotGroups machines)).map Prod.fst).Nodup) :
    make_spot_instance_requests out machines resp
      = Except.ok (out ++ flatZips resp 0 (spotGroups machines),
          (spotGroups machines).map (fun g => SpotRequest.mk g.1.1 g.1.2 g.2.length)) ∧
    (∀ g ∈ spotGroups machines,
      g.2 = machines.filter (fun p => decide ((p.2.ami, p.2.instance_type) = g.1))) ∧
    (∀ (i : Nat) (out2 : OutMap) (g : (String × String) × List (String × MachineSetup))
      (rest2 : List ((String × String) × List (String × MachineSetup))),
      (resp i).length ≠ g.2.length →
      processSpotGroups resp i out2 (g :: rest2)
        = Except.error ("Got " ++ toString (resp i).length
            ++ " spot instance requests but expected " ++ toString g.2.length)) := by
  refine ⟨processSpotGroups_success resp _ 0 out hm hfresh, ?_, ?_⟩
  · intro g hg
    exact intoGroupMap_group_content _ machines hg
  · intro i out2 g rest2 hne
    simp [processSpotGroups, hne]

/-- Witness for C6 on the c6 scenario: two groups of sizes two and one,
responses of matching sizes, all ids distinct. -/
theorem c6_spot_request_batching_witness :
    make_spot_instance_requests [] c6Machines c6Resp
      = Except.ok (([] : OutMap) ++ flatZips c6Resp 0 (spotGroups c6Machines),
          (spotGroups c6Machines).map (fun g => SpotRequest.mk g.1.1 g.1.2 g.2.length)) ∧
    (∀ g ∈ spotGroups c6Machines,
      g.2 = c6Machines.filter (fun p => decide ((p.2.ami, p.2.instance_type) = g.1))) ∧
    (∀ (i : Nat) (out2 : OutMap) (g : (String × String) × List (String × MachineSetup))
      (rest2 : List ((String × String) × List (String × MachineSetup))),
      (c6Resp i).length ≠ g.2.length →
      processSpotGroups c6Resp i out2 (g :: rest2)
        = Except.error ("Got " ++ toString (c6Resp i).length
            ++ " spot instance requests but expected " ++ toString g.2.length)) :=
  c6_spot_request_batching [] c6Machines c6Resp ⟨rfl, rfl, trivial⟩ (by decide)

theorem resolveSpotRequests_cons_active {out : OutMap} {s : SirStatus}
    {rest : List SirStatus} (hs : s.state = "active") {iid : String}
    (hiid : s.iid = some iid) {v : String × MachineSetup}
    (hlk : alookup out s.id = some v) :
    resolveSpotRequests out (s :: rest)
      = match resolveSpotRequests (listErase out s.id) rest with
        | some (outF, insts) => some (outF, (iid, (none, v)) :: insts)
        | none => none := by
  simp [resolveSpotRequests, hs, hiid, hlk]

theorem resolveSpotRequests_cons_inactive {out : OutMap} {s : SirStatus}
    {rest : List SirStatus} (hs : ¬ s.state = "active") :
    resolveSpotRequests out (s :: rest) = resolveSpotRequests out rest := by
  simp [resolveSpotRequests, hs]

theorem resolveSpotRequests_keys_subset :
    ∀ (sirs : List SirStatus) (out outF : OutMap) (insts : InstMap),
    resolveSpotRequests out sirs = some (outF, insts) →
    ∀ k, k ∈ outF.map Prod.fst → k ∈ out.map Prod.fst := by
  intro sirs
  induction sirs with
  | nil =>
    intro out outF insts h k hk
    simp [resolveSpotRequests] at h
    rw [h.1]
    exact hk
  | cons s rest ih =>
    intro out outF insts h k hk
    by_cases hs : s.state = "active"
    · cases hiid : s.iid with
      | none => simp [resolveSpotRequests, hs, hiid] at h
      | some iid =>
        cases hlk : alookup out s.id with
        | none => simp [resolveSpotRequests, hs, hiid, hlk] at h
        | some v =>
          rw [resolveSpotRequests_cons_active hs hiid hlk] at h
          cases hrec : resolveSpotRequests (listErase out s.id) rest with
          | none => rw [hrec] at h; simp at h
          | some pr =>
            obtain ⟨outF2, insts2⟩ := pr
            rw [hrec] at h
            simp only [Option.some.injEq, Prod.mk.injEq] at h
            have hsub := ih (listErase out s.id) outF2 insts2 hrec k (h.1 ▸ hk)
            exact ((mem_keys_listErase out s.id k).mp hsub).1
    · rw [resolveSpotRequests_cons_inactive hs] at h
      exact ih out outF insts h k hk

theorem resolveSpotRequests_keys_preserved :
    ∀ (sirs : List SirStatus) (out outF : OutMap) (insts : InstMap),
    resolveSpotRequests out sirs = some (outF, insts) →
    ∀ k, k ∈ out.map Prod.fst → k ∉ sirs.map SirStatus.id → k ∈ outF.map Prod.fst := by
  intro sirs
  induction sirs with
  | nil =>
    intro out outF insts h k hk _
    simp [resolveSpotRequests] at h
    rw [← h.1]
    exact hk
  | cons s rest ih =>
    intro out outF insts h k hk hnotin
    have hkid : k ≠ s.id := by
      intro he
      exact hnotin (by simp [he])
    have hnotin2 : k ∉ rest.map SirStatus.id := by
      intro hmem
      exact hnotin (by simp [hmem])
    by_cases hs : s.state = "active"
    · cases hiid : s.iid with
      | none => simp [resolveSpotRequests, hs, hiid] at h
      | some iid =>
        cases hlk : alookup out s.id with
        | none => simp [resolveSpotRequests, hs, hiid, hlk] at h
        | some v =>
          rw [resolveSpotRequests_cons_active hs hiid hlk] at h
          cases hrec : resolveSpotRequests (listErase out s.id) rest with
          | none => rw [hrec] at h; simp at h
          | some pr =>
            obtain ⟨outF2, insts2⟩ := pr
            rw [hrec] at h
            simp only [Option.some.injEq, Prod.mk.injEq] at h
            rw [← h.1]
            apply ih (listErase out s.id) outF2 insts2 hrec k ?_ hnotin2
            rw [mem_keys_listErase]
            exact ⟨hk, hkid⟩
    · rw [resolveSpotRequests_cons_inactive hs] at h
      exact ih out outF insts h k hk hnotin2

/-- C1 (amended): after the resolution step of
wait_for_spot_instance_requests, every pending-request entry whose request
reached state "active" resolves to exactly one instances-map entry and its
identifier is removed from outstanding_spot_request_ids, while an entry
whose request reached any other terminal state is dropped from instance
tracking with a logged failure but its identifier remains in the
pending-request map — failed identifiers are still in the map when the call
returns, and the timeout path leaves the map untouched as well. -/
theorem c1_resolution_amended (sirs : List SirStatus) :
    ∀ out : OutMap, (sirs.map SirStatus.id).Nodup →
    (∀ s ∈ sirs, s.state = "active" → s.iid.isSome ∧ s.id ∈ out.map Prod.fst) →
    ∃ outF insts, resolveSpotRequests out sirs = some (outF, insts) ∧
      insts.map Prod.fst
        = (sirs.filter (fun s => decide (s.state = "active"))).filterMap SirStatus.iid ∧
      (∀ s ∈ sirs, s.state = "active" → s.id ∉ outF.map Prod.fst) ∧
      (∀ s ∈ sirs, s.state ≠ "active" → s.id ∈ out.map Prod.fst →
        s.id ∈ outF.map Prod.fst) := by
  induction sirs with
  | nil =>
    intro out _ _
    exact ⟨out, [], rfl, rfl, by simp, by simp⟩
  | cons s rest ih =>
    intro out hn ha
    have hn1 : s.id ∉ rest.map SirStatus.id :=
      (List.nodup_cons.mp (show (s.id :: rest.map SirStatus.id).Nodup by simpa using hn)).1
    have hn2 : (rest.map SirStatus.id).Nodup :=
      (List.nodup_cons.mp (show (s.id :: rest.map SirStatus.id).Nodup by simpa using hn)).2
    by_cases hs : s.state = "active"
    · obtain ⟨hiidS, hmem⟩ := ha s (List.mem_cons_self s rest) hs
      obtain ⟨iid, hiid⟩ := Option.isSome_iff_exists.mp hiidS
      obtain ⟨v, hlk⟩ := alookup_isSome_of_mem_keys hmem
      have ha2 : ∀ s2 ∈ rest, s2.state = "active" →
          s2.iid.isSome ∧ s2.id ∈ (listErase out s.id).map Prod.fst := by
        intro s2 hs2 hact
        obtain ⟨h1, h2⟩ := ha s2 (List.mem_cons_of_mem s hs2) hact
        refine ⟨h1, ?_⟩
        rw [mem_keys_listErase]
        refine ⟨h2, ?_⟩
        intro he
        exact hn1 (he ▸ List.mem_map_of_mem SirStatus.id hs2)
      obtain ⟨outF, insts, heq, hmap, hact, hrem⟩ := ih (listErase out s.id) hn2 ha2
      refine ⟨outF, (iid, (none, v)) :: insts, ?_, ?_, ?_, ?_⟩
      · rw [resolveSpotRequests_cons_active hs hiid hlk, heq]
      · simp [hs, hiid, hmap]
      · intro s2 hs2 hact2
        rcases List.mem_cons.mp hs2 with rfl | hs2r
        · intro hinF
          have hsub := resolveSpotRequests_keys_subset rest (listErase out s2.id)
            outF insts heq s2.id hinF
          exact ((mem_keys_listErase out s2.id s2.id).mp hsub).2 rfl
        · exact hact s2 hs2r hact2
      · intro s2 hs2 hact2 hin
        rcases List.mem_cons.mp hs2 with rfl | hs2r
        · exact absurd hs hact2
        · have hne : s2.id ≠ s.id := by
            intro he
            exact hn1 (he ▸ List.mem_map_of_mem SirStatus.id hs2r)
          apply hrem s2 hs2r hact2
          rw [mem_keys_listErase]
          exact ⟨hin, hne⟩
    · obtain ⟨outF, insts, heq, hmap, hact, hrem⟩ := ih out hn2
        (fun s2 hs2 hact2 => ha s2 (List.mem_cons_of_mem s hs2) hact2)
      refine ⟨outF, insts, ?_, ?_, ?_, ?_⟩
      · rw [resolveSpotRequests_cons_inactive hs, heq]
      · simp [hs, hmap]
      · intro s2 hs2 hact2
        rcases List.mem_cons.mp hs2 with rfl | hs2r
        · exact absurd hact2 hs
        · exact hact s2 hs2r hact2
      · intro s2 hs2 hact2 hin
        rcases List.mem_cons.mp hs2 with rfl | hs2r
        · exact resolveSpotRequests_keys_preserved rest out outF insts heq s2.id hin hn1
        · exact hrem s2 hs2r hact2 hin

/-- Witness for the amended C1 theorem: one active and one failed request;
the active one is promoted and removed, the failed identifier sir-2 stays in
the pending-request map. -/
theorem c1_resolution_amended_witness :
    ∃ outF insts, resolveSpotRequests c1Out c1Sirs = some (outF, insts) ∧
      insts.map Prod.fst
        = (c1Sirs.filter (fun s => decide (s.state = "active"))).filterMap SirStatus.iid ∧
      (∀ s ∈ c1Sirs, s.state = "active" → s.id ∉ outF.map Prod.fst) ∧
      (∀ s ∈ c1Sirs, s.state ≠ "active" → s.id ∈ c1Out.map Prod.fst →
        s.id ∈ outF.map Prod.fst) :=
  c1_resolution_amended c1Sirs c1Out (by decide) (by decide)

/-- Witness for the amended C5 theorem: every teardown step fails
non-fatally (one transient terminate retry, then a hard terminate failure,
and failing deletes), yet teardown completes and both delete calls ran. -/
theorem c5_aws_teardown_best_effort_witness :
    ∃ acts, awsDrop ⟨true, true, "sg-1", "key-1", ["i-1"]⟩
        [TermResult.transientNet, TermResult.otherErr] false false
        = DropOutcome.completed acts ∧
      (("sg-1" : String) ≠ "" → TeardownAction.deleteSecurityGroupCall ∈ acts) ∧
      (("key-1" : String) ≠ "" → TeardownAction.deleteKeyPairCall ∈ acts) ∧
      ((["i-1"] : List String) = [] → ("sg-1" : String) = "" → ("key-1" : String) = "" →
        acts = []) :=
  c5_aws_teardown_best_effort ⟨true, true, "sg-1", "key-1", ["i-1"]⟩
    [TermResult.transientNet, TermResult.otherErr] false false rfl rfl
    (fun _ => ⟨[TeardownAction.terminateCall, TeardownAction.logRetryTermination,
      TeardownAction.terminateCall, TeardownAction.logTerminationFailure], rfl⟩)

/-- C2: in AWSLauncher::launch the readiness-wait stage always receives the
original max_wait, not the remaining budget: the subtraction at aws.rs:240
mutates a dropped copy.  Concretely, with a 10-unit deadline of which the
fulfillment wait consumed 3, wait_for_instances is called with 10, not 7. -/
theorem c2_readiness_wait_gets_full_deadline :
    (∀ mw e, (launchStageBudgets mw e).2 = mw) ∧
    (launchStageBudgets (some 10) 3).2 = some 10 ∧
    (launchStageBudgets (some 10) 3).2 ≠ some 7 :=
  ⟨fun _ _ => rfl, rfl, by decide⟩

/-- C4: with a 2-unit deadline and every describe call failing with the
transient "request ID does not exist" error, the fulfillment-wait loop of
wait_for_spot_instance_requests never terminates, for any amount of fuel:
the transient branch retries immediately, skipping both the poll sleep and
the deadline check, so the deadline is never enforced. -/
theorem c4_transient_errors_defeat_deadline (out : OutMap) (reqIds : List String)
    (elapsed q fuel : Nat) :
    spotWaitLoop (fun _ => DescribeResult.transientErr) (some 2) out reqIds elapsed q fuel
      = LoopRes.fuelOut := by
  induction fuel generalizing q with
  | zero => rfl
  | succ n ih => simpa [spotWaitLoop] using ih (q + 1)

/-- C1 counterexample: a spot request that resolves to the terminal state
"failed" is dropped from the instances map but its identifier stays in
outstanding_spot_request_ids, so wait_for_spot_instance_requests returns
successfully with "sir-1" still in the pending-request map. -/
theorem c1_failed_request_id_remains_cex :
    wait_for_spot_instance_requests cexSched none cexOut 1
      = LoopRes.done (Except.ok (cexOut, [])) ∧
    cexOut.map Prod.fst = ["sir-1"] :=
  ⟨rfl, rfl⟩

/-- C3: in the c3 scenario instance i-1 is ready on the first pass while its
sibling i-2 is not; the loop then re-processes i-1 on the second pass, so its
setup procedure runs twice and its address pair is written twice —
promotion is not exactly-once. -/
theorem c3_ready_instance_reprocessed :
    wait_for_instances c3Sched (fun _ => true) (fun _ => true) none c3Insts 3
      = LoopRes.done (Except.ok (c3FinalInsts, c3FinalActs)) ∧
    c3FinalActs.count (ReadyAction.runSetup "m1") = 2 ∧
    c3FinalActs.count (ReadyAction.setIp "i-1" "1.1.1.1" "dnsa") = 2 :=
  ⟨rfl, by decide, by decide⟩

/-- C9: launching twice into the same region replaces the regions map entry,
dropping the previous AWSRegion — which terminates its instances — so after
the second launch connect_all covers only the new machines and the earlier
machine was terminated rather than preserved. -/
theorem c9_same_region_relaunch_replaces :
    (launcherConnectAll (launcherLaunch (launcherLaunch ⟨[]⟩ "us-east-1" ["m1"]).1
        "us-east-1" ["m2"]).1 = ["m2"]) ∧
    ((launcherLaunch (launcherLaunch ⟨[]⟩ "us-east-1" ["m1"]).1 "us-east-1" ["m2"]).2
        = ["m1"]) ∧
    "m1" ∉ launcherConnectAll (launcherLaunch (launcherLaunch ⟨[]⟩ "us-east-1" ["m1"]).1
        "us-east-1" ["m2"]).1 := by
  refine ⟨rfl, rfl, by decide⟩

/-- C5 counterexample: the Azure teardown unwraps the resource-group delete,
so a failing delete panics out of Drop — teardown does propagate a panic for
the Azure backend. -/
theorem c5_azure_teardown_panics_cex : azureDrop false = DropOutcome.panicked := rfl

/-- C10 counterexample: with one populated and one absent address pair,
AWSRegion::connect_all fails the whole call with "Machines not initialized"
instead of omitting the absent record and returning the populated one. -/
theorem c10_absent_address_fails_cex :
    region_connect_all c10Insts = Except.error "Machines not initialized" ∧
    region_connect_all c10Insts
      ≠ Except.ok [("m1", ⟨"m1", "1.2.3.4", "dns1"⟩)] :=
  ⟨rfl, fun h => Except.noConfusion h⟩

end Tsunami
